import Mathlib

/-!
Verification of the schedule-filtering and route-projection core of the
zpgsa-angular transit map.

The development shallowly embeds the TypeScript sources:
  * `src/app/map/filterStopDetails.ts` — calendar classification and the
    departure-board filter (`filterBuses`, `parseBusTime`, `filterStopDetails`);
  * `src/app/map/map.component.ts` — route slicing (`getRoute`) and route
    projection (the `paths`/`fullPath` computation of `updateRoute`).

Modelling conventions:
  * luxon `DateTime` values are modelled by the record `DateT` carrying the
    calendar fields and the time-of-day fields the code reads; instants on one
    calendar day compare through their millisecond-of-day. Time zones and DST
    are not modelled (the code never manipulates zones).
  * JavaScript `Array.prototype.sort` is modelled by a stable insertion sort
    (`jsSort`); for consistent comparators this is exactly the ECMAScript 2019+
    stable-sort result, and for inconsistent comparators (NaN results) it picks
    one of the implementation-defined orders the standard allows.  A comparator
    result of NaN (modelled by `none`) is treated as 0, as `SortCompare` does.
  * JavaScript numbers reaching these functions are only compared for equality
    with 0 or subtracted for sort keys, so coordinates are modelled by `ℚ` and
    sort keys by `ℤ`; no floating-point rounding is exercised by the code paths
    under verification.
-/

/-- The `{day, month}` records of `filterStopDetails.ts` (declared there as a
local `Date` interface). -/
structure DateDM where
  day : Nat
  month : Nat
deriving DecidableEq, Repr

/-- Model of a luxon `DateTime` value: the fields the code reads.  `weekday`
follows luxon's convention 1 = Monday … 7 = Sunday. -/
structure DateT where
  year : Nat
  month : Nat
  day : Nat
  weekday : Nat
  hour : Nat
  minute : Nat
  sec : Nat
  millisecond : Nat
deriving DecidableEq, Repr

/-- The `daysFreeFromSchool` constant of `filterStopDetails.ts`. -/
def daysFreeFromSchool : List DateDM :=
  [⟨26, 12⟩, ⟨27, 12⟩, ⟨30, 12⟩,
   ⟨31, 12⟩, ⟨2, 1⟩, ⟨3, 1⟩, ⟨3, 2⟩,
   ⟨4, 2⟩, ⟨5, 2⟩, ⟨6, 2⟩, ⟨7, 2⟩,
   ⟨10, 2⟩, ⟨11, 2⟩, ⟨12, 2⟩, ⟨13, 2⟩,
   ⟨14, 2⟩, ⟨22, 4⟩]

/-- The `holidays` constant of `filterStopDetails.ts` (the source lists `{6,1}`
twice; the duplicate is kept). -/
def holidays : List DateDM :=
  [⟨6, 1⟩, ⟨19, 6⟩, ⟨1, 11⟩, ⟨1, 1⟩, ⟨6, 1⟩, ⟨23, 12⟩,
   ⟨24, 12⟩, ⟨25, 12⟩, ⟨17, 4⟩, ⟨18, 4⟩, ⟨19, 4⟩, ⟨20, 4⟩,
   ⟨21, 4⟩, ⟨1, 5⟩, ⟨3, 5⟩]

/-- The check `holidays.some(d => d.day === now.day && d.month === now.month)` in
`filterBuses`. -/
def isHoliday (date : DateT) : Bool :=
  holidays.any (fun d => d.day == date.day && d.month == date.month)

/-- The check `!daysFreeFromSchool.some(d => d.day === now.day && d.month === now.month)`
in the weekday branch of `filterBuses`. -/
def isSchoolDay (date : DateT) : Bool :=
  !(daysFreeFromSchool.any (fun d => d.day == date.day && d.month == date.month))

/-- The `StopDetailsBus` record of `map.component.ts`. -/
structure StopDetailsBus where
  time : String
  line : String
  destination : String
  operating_days : String
  school_restriction : String
deriving DecidableEq, Repr

/-- The `StopDetails` record of `map.component.ts`. -/
structure StopDetails where
  id : String
  buses : List StopDetailsBus
deriving DecidableEq, Repr

/-- The predicate of `buses.filter(...)` inside `filterBuses`: the holiday
branch, then the `switch (date.weekday)` with cases 7, 6 and default. -/
def busKeep (date : DateT) (isHol : Bool) (bus : StopDetailsBus) : Bool :=
  if isHol then bus.operating_days == "sun"
  else if date.weekday == 7 then bus.operating_days == "sun"
  else if date.weekday == 6 then bus.operating_days == "sat"
  else
    bus.operating_days == "mon_fri" &&
      (if bus.school_restriction == "free_day_only" then !(isSchoolDay date)
       else if bus.school_restriction == "school_only" then isSchoolDay date
       else true)

/-- The function `filterBuses` of `filterStopDetails.ts`. -/
def filterBuses (date : DateT) (buses : List StopDetailsBus) : List StopDetailsBus :=
  buses.filter (busKeep date (isHoliday date))

/-- An ASCII decimal digit (what `\d` matches in the luxon format regex). -/
def isDig (c : Char) : Bool := 48 ≤ c.toNat && c.toNat ≤ 57

/-- luxon `DateTime.fromFormat(s, 'HH:mm')`, reduced to its minutes past
midnight: the format matches the whole string, `HH` and `mm` are exactly two
ASCII digits separated by `:`, and the resulting hour/minute must be in range
(out-of-range units give an invalid DateTime, here `none`). -/
def parseHHmm (s : String) : Option Nat :=
  match s.data with
  | [a, b, c, d, e] =>
    if isDig a && isDig b && c == ':' && isDig d && isDig e then
      if (a.toNat - 48) * 10 + (b.toNat - 48) ≤ 23 &&
         (d.toNat - 48) * 10 + (e.toNat - 48) ≤ 59 then
        some (((a.toNat - 48) * 10 + (b.toNat - 48)) * 60 +
          ((d.toNat - 48) * 10 + (e.toNat - 48)))
      else none
    else none
  | _ => none

/-- Millisecond-of-day of a `DateT`; luxon instants on equal calendar dates
compare exactly through this value. -/
def msOfDay (d : DateT) : Nat :=
  ((d.hour * 60 + d.minute) * 60 + d.sec) * 1000 + d.millisecond

/-- The function `parseBusTime` of `filterStopDetails.ts`: parse `HH:mm` and move the
result onto `now`'s calendar date (seconds and milliseconds default to 0). -/
def parseBusTime (busTime : String) (now : DateT) : Option DateT :=
  (parseHHmm busTime).map
    (fun m => { now with hour := m / 60, minute := m % 60, sec := 0, millisecond := 0 })

/-- JavaScript `<=` between two luxon DateTimes (via `valueOf`/`toMillis`),
as a lexicographic comparison of the calendar date and the time of day. -/
def dtLe (a b : DateT) : Bool :=
  if a.year != b.year then a.year < b.year
  else if a.month != b.month then a.month < b.month
  else if a.day != b.day then a.day < b.day
  else msOfDay a ≤ msOfDay b

/-- The predicate of the second `.filter` in `filterStopDetails`:
`busTime ? busTime >= nowDate : false`. -/
def keepNow (now : DateT) (bus : StopDetailsBus) : Bool :=
  match parseBusTime bus.time now with
  | some t => dtLe now t
  | none => false

/-- ASCII whitespace, for the model of `String.prototype.trim`. -/
def jsWs (c : Char) : Bool :=
  c.toNat == 32 || c.toNat == 9 || c.toNat == 10 ||
  c.toNat == 13 || c.toNat == 11 || c.toNat == 12

/-- Model of `String.prototype.trim` (ASCII whitespace suffices for the data
reaching these call sites). -/
def jsTrim (s : String) : String :=
  ⟨((s.data.dropWhile jsWs).reverse.dropWhile jsWs).reverse⟩

/-- Sort key of the same-day comparator in `filterStopDetails`:
`DateTime.fromFormat(a.time, 'HH:mm').toMillis()` up to the shared
today-midnight offset; `none` is NaN. -/
def keySame (bus : StopDetailsBus) : Option Int :=
  (parseHHmm bus.time).map (fun m => (m : Int) * 60000)

/-- Sort key of the next-day comparator in `filterStopDetails`:
`DateTime.fromFormat(a.time.trim(), 'HH:mm').toMillis()` up to the shared
today-midnight offset; `none` is NaN. -/
def keyExt (bus : StopDetailsBus) : Option Int :=
  (parseHHmm (jsTrim bus.time)).map (fun m => (m : Int) * 60000)

/-- A JavaScript comparator `keyA - keyB`: NaN (`none`) when either key is
NaN. -/
def cmpOfKey {α : Type} (key : α → Option Int) (a b : α) : Option Int :=
  match key a, key b with
  | some x, some y => some (x - y)
  | _, _ => none

/-- ECMAScript `SortCompare` reading of a comparator result: the element goes
earlier exactly when the result is a number below zero (NaN is treated as
+0). -/
def jsLt (r : Option Int) : Bool :=
  match r with
  | some v => v < 0
  | none => false

/-- Insert an element into an already-processed prefix, after every element it
does not compare strictly below — the stable placement. -/
def jsInsert {α : Type} (cmp : α → α → Option Int) (x : α) : List α → List α
  | [] => [x]
  | y :: ys => if jsLt (cmp x y) then x :: y :: ys else y :: jsInsert cmp x ys

/-- Model of `Array.prototype.sort(cmp)` as a stable insertion sort (see the
header note on inconsistent comparators). -/
def jsSort {α : Type} (cmp : α → α → Option Int) (l : List α) : List α :=
  l.foldl (fun acc x => jsInsert cmp x acc) []

/-- Gregorian month length, as luxon computes it. -/
def daysInMonth (y m : Nat) : Nat :=
  if m == 2 then (if y % 4 == 0 && y % 100 != 0 || y % 400 == 0 then 29 else 28)
  else if m == 4 || m == 6 || m == 9 || m == 11 then 30
  else 31

/-- luxon `.plus({days: 1})`: advance the calendar date by one day, keep the
time of day, and step the weekday cyclically. -/
def nextDay (d : DateT) : DateT :=
  if d.day < daysInMonth d.year d.month then
    { d with day := d.day + 1, weekday := d.weekday % 7 + 1 }
  else if d.month < 12 then
    { d with day := 1, month := d.month + 1, weekday := d.weekday % 7 + 1 }
  else
    { d with year := d.year + 1, month := 1, day := 1, weekday := d.weekday % 7 + 1 }

/-- The same-day list of `filterStopDetails`:
`filterBuses(nowDate, stop.buses).filter(...).sort(...)`. -/
def sameDayBuses (now : DateT) (stop : StopDetails) : List StopDetailsBus :=
  jsSort (cmpOfKey keySame) ((filterBuses now stop.buses).filter (keepNow now))

/-- The `extended` list of `filterStopDetails`:
`filterBuses(nowDate.plus({days: 1}), stop.buses).sort(...)` — note that no
time-parseability filter is applied here. -/
def extBuses (now : DateT) (stop : StopDetails) : List StopDetailsBus :=
  jsSort (cmpOfKey keyExt) (filterBuses (nextDay now) stop.buses)

/-- The function `filterStopDetails` of `filterStopDetails.ts`, with the ambient
`DateTime.now()` passed explicitly. -/
def filterStopDetails (now : DateT) (stop : StopDetails) : StopDetails :=
  { id := stop.id,
    buses := (if (sameDayBuses now stop).length < 15
              then sameDayBuses now stop ++ extBuses now stop
              else sameDayBuses now stop).take 15 }

/-- The output of `filterStopDetails` with each entry tagged by its source day
(0 = the reference day, 1 = the appended next day). -/
def taggedSelect (now : DateT) (stop : StopDetails) : List (Nat × StopDetailsBus) :=
  let s := (sameDayBuses now stop).map (fun b => (0, b))
  (if (sameDayBuses now stop).length < 15 then
    s ++ (extBuses now stop).map (fun b => (1, b))
  else s).take 15

example : parseHHmm "08:00" = some 480 := by decide
example : parseHHmm "8:00" = none := by decide
example : parseHHmm "25:00" = none := by decide
example : parseHHmm "xx" = none := by decide

/-! ## Route slicing and projection (`map.component.ts`) -/

/-- The `Bus` record of `map.component.ts` (the normalized vehicle snapshot). -/
structure Bus where
  id : String
  label : String
  lat : ℚ
  lon : ℚ
  line : String
  route : String
  latest_route_stop : String
  deviation : String
  icon : String
  destination : String
deriving DecidableEq, Repr

/-- The `Stop` record of `map.component.ts`. -/
structure Stop where
  city : String
  name : String
  id : String
  lat : ℚ
  lon : ℚ
  href : String
deriving DecidableEq, Repr

/-- The `Route` record of `map.component.ts`: one route checkpoint; every field is
text-encoded, `order` included. -/
structure Route where
  id : String
  label : String
  lat : String
  lon : String
  name : String
  order : String
  platform : String
  stopId : String
deriving DecidableEq, Repr

/-- Value of one digit under a radix, for the `parseInt` model. -/
def digitVal (radix : Nat) (c : Char) : Option Nat :=
  let v :=
    if c.isDigit then some (c.toNat - 48)
    else if 'a' ≤ c && c ≤ 'f' then some (c.toNat - 87)
    else if 'A' ≤ c && c ≤ 'F' then some (c.toNat - 55)
    else none
  match v with
  | some n => if n < radix then some n else none
  | none => none

/-- Longest digit prefix of a character list under a radix; `none` when the
prefix is empty (the NaN case of `parseInt`). -/
def parseDigits (radix : Nat) (cs : List Char) (acc : Nat) (seen : Bool) : Option Nat :=
  match cs with
  | [] => if seen then some acc else none
  | c :: rest =>
    match digitVal radix c with
    | some v => parseDigits radix rest (acc * radix + v) true
    | none => if seen then some acc else none

/-- ECMAScript `parseInt(string)` with no radix argument: strip leading
whitespace, read an optional sign, honour a `0x`/`0X` hexadecimal prefix,
take the longest digit prefix, and return NaN (`none`) when no digit was
read. -/
def jsParseInt (s : String) : Option Int :=
  let cs := s.data.dropWhile jsWs
  let sgn : Int := match cs with
    | '-' :: _ => -1
    | _ => 1
  let cs2 := match cs with
    | '-' :: r => r
    | '+' :: r => r
    | _ => cs
  match cs2 with
  | '0' :: c :: r =>
    if c == 'x' || c == 'X' then (parseDigits 16 r 0 false).map (fun n => sgn * n)
    else (parseDigits 10 cs2 0 false).map (fun n => sgn * n)
  | _ => (parseDigits 10 cs2 0 false).map (fun n => sgn * n)

/-- JavaScript `>` between two `parseInt` results: false whenever either side
is NaN. -/
def jsGtNum (a b : Option Int) : Bool :=
  match a, b with
  | some x, some y => x > y
  | _, _ => false

/-- Truthiness of `route.find(...)?.order`: falsy when the find missed
(`undefined`) or the matched `order` is the empty string. -/
def jsFalsyStr (s : Option String) : Bool :=
  match s with
  | some t => t == ""
  | none => true

/-- The route-slicing part of `getRoute` in `map.component.ts`, with the
fetched checkpoint list passed in place of the HTTP call. -/
def getRoute (route : List Route) (latestRouteStop : String) : List Route :=
  let currentOrder := (route.find? (fun point => point.stopId == latestRouteStop)).map (·.order)
  if jsFalsyStr currentOrder then []
  else
    route.filter (fun point =>
      jsGtNum (jsParseInt point.order) (jsParseInt (currentOrder.getD "")))

/-- The operation `sliceAhead` as the specification words it: find the checkpoint whose
`stopId` matches; none found gives the empty list, otherwise keep exactly the
checkpoints whose `order` is numerically strictly greater than the matched
checkpoint's, in their input order. -/
def sliceAheadSpec (route : List Route) (latestRouteStop : String) : List Route :=
  match route.find? (fun point => point.stopId == latestRouteStop) with
  | none => []
  | some cp => route.filter (fun point => jsGtNum (jsParseInt point.order) (jsParseInt cp.order))

/-- The `stop ? [stop.lat, stop.lon] : [0, 0]` resolution step inside
`updateRoute`. -/
def resolveCoord (stops : List Stop) (point : Route) : ℚ × ℚ :=
  match stops.find? (fun stop => stop.id == point.stopId) with
  | some stop => (stop.lat, stop.lon)
  | none => ((0 : ℚ), (0 : ℚ))

/-- The path computation of `updateRoute` in `map.component.ts`: map each
sliced checkpoint to its stop's coordinates (origin sentinel on a miss),
keep coordinates with `lat !== 0 && lon !== 0`, and prepend the vehicle
position (`fullPath` in the source). -/
def fullPath (bus : Bus) (route : List Route) (stops : List Stop) : List (ℚ × ℚ) :=
  let paths := (route.map (resolveCoord stops)).filter
    (fun c => decide (c.1 ≠ 0) && decide (c.2 ≠ 0))
  (bus.lat, bus.lon) :: paths

/-- The operation `projectPath` as the specification words it: prepend the vehicle position
and keep, in order, the coordinates of checkpoints that resolve, dropping
lookup misses and coordinates equal to the sentinel origin `(0, 0)`. -/
def projectPathSpec (bus : Bus) (route : List Route) (stops : List Stop) : List (ℚ × ℚ) :=
  (bus.lat, bus.lon) ::
    ((route.filterMap (fun point =>
        (stops.find? (fun stop => stop.id == point.stopId)).map
          (fun stop => (stop.lat, stop.lon)))).filter
      (fun c => decide (c ≠ ((0 : ℚ), (0 : ℚ)))))

/-- The drop-any-zero-coordinate reading of the projection: lookup misses are
dropped, and so is every resolved coordinate with latitude 0 or longitude 0. -/
def projectPathZeroDrop (bus : Bus) (route : List Route) (stops : List Stop) : List (ℚ × ℚ) :=
  (bus.lat, bus.lon) ::
    ((route.filterMap (fun point =>
        (stops.find? (fun stop => stop.id == point.stopId)).map
          (fun stop => (stop.lat, stop.lon)))).filter
      (fun c => !(decide (c.1 = 0 ∨ c.2 = 0))))

/-! ## A heap model of `filterStopDetails`

JavaScript arrays are mutable references: `.filter`, `.slice` and spreading
allocate fresh arrays, while `.sort` mutates its receiver in place.  To state
that `filterStopDetails` never mutates its input, the function is replayed
over an explicit store of arrays; reference 0 is the caller's `stop.buses`.
(The code never assigns to a field of an entry object, so entries are plain
values here.) -/

/-- The store of live arrays. -/
abbrev Heap := List (List StopDetailsBus)

/-- Read an array out of the store. -/
def hGet (h : Heap) (r : Nat) : List StopDetailsBus := h.getD r []

/-- Allocate a fresh array (what `.filter`, `.slice` and `[...a, ...b]` do). -/
def hAlloc (h : Heap) (l : List StopDetailsBus) : Heap × Nat := (h ++ [l], h.length)

/-- Overwrite an array in place (what `.sort` does to its receiver). -/
def hSet (h : Heap) (r : Nat) (l : List StopDetailsBus) : Heap := h.set r l

/-- The function `filterStopDetails` replayed over the store, one JavaScript array
operation at a time; returns the result object and the final store.  The
caller's `stop.buses` lives at reference 0. -/
def filterStopDetailsHeap (now : DateT) (stop : StopDetails) : StopDetails × Heap :=
  let h0 : Heap := [stop.buses]
  let rIn : Nat := 0
  let a1 := hAlloc h0 ((hGet h0 rIn).filter (busKeep now (isHoliday now)))
  let a2 := hAlloc a1.1 ((hGet a1.1 a1.2).filter (keepNow now))
  let h3 := hSet a2.1 a2.2 (jsSort (cmpOfKey keySame) (hGet a2.1 a2.2))
  if (hGet h3 a2.2).length < 15 then
    let a4 := hAlloc h3 ((hGet h3 rIn).filter (busKeep (nextDay now) (isHoliday (nextDay now))))
    let h5 := hSet a4.1 a4.2 (jsSort (cmpOfKey keyExt) (hGet a4.1 a4.2))
    let a6 := hAlloc h5 (hGet h5 a2.2 ++ hGet h5 a4.2)
    let a7 := hAlloc a6.1 ((hGet a6.1 a6.2).take 15)
    ({ id := stop.id, buses := hGet a7.1 a7.2 }, a7.1)
  else
    let a4 := hAlloc h3 ((hGet h3 a2.2).take 15)
    ({ id := stop.id, buses := hGet a4.1 a4.2 }, a4.1)

/-! ## Lemmas about the sort model -/

/-- Membership in an insertion step. -/
theorem mem_jsInsert {α : Type} (cmp : α → α → Option Int) (x a : α) :
    ∀ l : List α, a ∈ jsInsert cmp x l ↔ a = x ∨ a ∈ l := by
  intro l
  induction l with
  | nil => simp [jsInsert]
  | cons y ys ih =>
    by_cases h : jsLt (cmp x y) = true
    · simp [jsInsert, h]
    · simp only [jsInsert, if_neg h, List.mem_cons, ih]
      tauto

/-- An insertion step permutes a cons. -/
theorem jsInsert_perm {α : Type} (cmp : α → α → Option Int) (x : α) :
    ∀ l : List α, (jsInsert cmp x l).Perm (x :: l) := by
  intro l
  induction l with
  | nil => simp [jsInsert]
  | cons y ys ih =>
    by_cases h : jsLt (cmp x y) = true
    · simp [jsInsert, h]
    · simp only [jsInsert, if_neg h]
      exact (ih.cons y).trans (List.Perm.swap x y ys)

theorem jsSort_foldl_perm {α : Type} (cmp : α → α → Option Int) :
    ∀ (l acc : List α), (l.foldl (fun acc x => jsInsert cmp x acc) acc).Perm (acc ++ l) := by
  intro l
  induction l with
  | nil => intro acc; simp
  | cons x xs ih =>
    intro acc
    simp only [List.foldl_cons]
    have h1 := ih (jsInsert cmp x acc)
    have h2 : (jsInsert cmp x acc ++ xs).Perm ((x :: acc) ++ xs) :=
      (jsInsert_perm cmp x acc).append_right xs
    have h3 : ((x :: acc) ++ xs).Perm (acc ++ x :: xs) := by
      simpa using (@List.perm_middle _ x acc xs).symm
    exact (h1.trans h2).trans h3

/-- The sort model permutes its input. -/
theorem jsSort_perm {α : Type} (cmp : α → α → Option Int) (l : List α) :
    (jsSort cmp l).Perm l := by
  simpa using jsSort_foldl_perm cmp l []

/-- Membership is preserved by the sort model. -/
theorem mem_jsSort {α : Type} (cmp : α → α → Option Int) (l : List α) (a : α) :
    a ∈ jsSort cmp l ↔ a ∈ l :=
  (jsSort_perm cmp l).mem_iff

/-- Occurrence counts are preserved by the sort model. -/
theorem count_jsSort {α : Type} [DecidableEq α] (cmp : α → α → Option Int) (l : List α) (a : α) :
    (jsSort cmp l).count a = l.count a :=
  (jsSort_perm cmp l).count_eq a

/-! ## Lemmas about time parsing and the filter chunks -/

/-- What the `busTime ? busTime >= nowDate : false` check guarantees: the
entry's wall-clock time parses and, materialized onto the reference date, is
not before the reference instant. -/
theorem keepNow_spec (now : DateT) (e : StopDetailsBus) (h : keepNow now e = true) :
    ∃ m, parseHHmm e.time = some m ∧ msOfDay now ≤ m * 60000 := by
  unfold keepNow parseBusTime at h
  cases hp : parseHHmm e.time with
  | none => rw [hp] at h; simp at h
  | some m =>
    rw [hp] at h
    simp only [Option.map_some'] at h
    refine ⟨m, rfl, ?_⟩
    unfold dtLe at h
    simp only [bne_self_eq_false, Bool.false_eq_true, if_false, msOfDay,
      decide_eq_true_eq] at h
    unfold msOfDay
    omega

/-- Membership in the same-day chunk means the entry came from the timetable
and passed the not-yet-departed check. -/
theorem mem_sameDayBuses (now : DateT) (stop : StopDetails) (e : StopDetailsBus)
    (h : e ∈ sameDayBuses now stop) : keepNow now e = true ∧ e ∈ stop.buses := by
  unfold sameDayBuses at h
  rw [mem_jsSort, List.mem_filter] at h
  refine ⟨h.2, ?_⟩
  have h1 := h.1
  unfold filterBuses at h1
  exact (List.mem_filter.mp h1).1

/-- Erasing the source-day tags of `taggedSelect` gives exactly the buses
list `filterStopDetails` returns. -/
theorem filterStopDetails_eq_taggedSelect (now : DateT) (stop : StopDetails) :
    (filterStopDetails now stop).buses = (taggedSelect now stop).map Prod.snd := by
  unfold filterStopDetails taggedSelect
  by_cases h : (sameDayBuses now stop).length < 15
  · simp only [if_pos h, List.map_take, List.map_append, List.map_map]
    simp
  · simp only [if_neg h, List.map_take, List.map_map]
    simp

/-! ## Claim theorems -/

/-- Claim C1: on a date whose day/month pair is in the holiday set, the
day-class filter keeps exactly the entries with `operating_days = "sun"`,
whatever the weekday is — the holiday branch precedes the Saturday branch. -/
theorem holiday_keeps_exactly_sunday (date : DateT) (buses : List StopDetailsBus)
    (h : isHoliday date = true) :
    filterBuses date buses = buses.filter (fun bus => bus.operating_days == "sun") := by
  unfold filterBuses busKeep
  rw [h]
  simp

/-- Concrete date for the C1 witness: 2025-05-03 falls on a Saturday
(weekday 6) and its day/month pair is in the holiday list. -/
def dateC1 : DateT := ⟨2025, 5, 3, 6, 12, 0, 0, 0⟩

/-- Concrete timetable for the C1 witness. -/
def busesC1 : List StopDetailsBus :=
  [⟨"08:00", "1", "CityA", "sun", "none"⟩,
   ⟨"09:00", "2", "CityB", "sat", "none"⟩,
   ⟨"10:00", "3", "CityC", "mon_fri", "none"⟩]

/-- Witness for C1 at a holiday falling on a Saturday. -/
theorem holiday_keeps_exactly_sunday_witness :
    isHoliday dateC1 = true ∧
    filterBuses dateC1 busesC1 = busesC1.filter (fun bus => bus.operating_days == "sun") :=
  ⟨by decide, holiday_keeps_exactly_sunday dateC1 busesC1 (by decide)⟩

/-- The school-restriction check of the weekday branch, as the specification
words it: `free_day_only` entries run only on school-free days, `school_only`
entries only on school days, anything else runs unconditionally. -/
def weekdaySchoolKeep (date : DateT) (bus : StopDetailsBus) : Bool :=
  bus.operating_days == "mon_fri" &&
    (if bus.school_restriction == "free_day_only" then !(isSchoolDay date)
     else if bus.school_restriction == "school_only" then isSchoolDay date
     else true)

/-- Claim C2: on a non-holiday Monday-to-Friday date the filter keeps exactly
the `mon_fri` entries passing the school-restriction check, and
`isSchoolDay` is false exactly on the dates of the school-free set. -/
theorem weekday_filter_school_check (date : DateT) (buses : List StopDetailsBus)
    (hhol : isHoliday date = false) (h1 : 1 ≤ date.weekday) (h5 : date.weekday ≤ 5) :
    filterBuses date buses = buses.filter (weekdaySchoolKeep date) ∧
    (isSchoolDay date = false ↔
      ∃ d ∈ daysFreeFromSchool, d.day = date.day ∧ d.month = date.month) := by
  constructor
  · have h7 : (date.weekday == 7) = false := by
      simp only [beq_eq_false_iff_ne, ne_eq]; omega
    have h6 : (date.weekday == 6) = false := by
      simp only [beq_eq_false_iff_ne, ne_eq]; omega
    unfold filterBuses busKeep weekdaySchoolKeep
    rw [hhol]
    simp [h7, h6]
  · unfold isSchoolDay
    rw [Bool.not_eq_false']
    rw [List.any_eq_true]
    constructor
    · rintro ⟨d, hd, hdm⟩
      simp only [Bool.and_eq_true, beq_iff_eq] at hdm
      exact ⟨d, hd, hdm⟩
    · rintro ⟨d, hd, hdm⟩
      exact ⟨d, hd, by simp [hdm.1, hdm.2]⟩

/-- Concrete date for the C2 witness: 2025-06-10 is a Tuesday, not a holiday
and not school-free. -/
def dateC2 : DateT := ⟨2025, 6, 10, 2, 7, 30, 0, 0⟩

/-- Concrete timetable for the C2 witness, covering all three restrictions. -/
def busesC2 : List StopDetailsBus :=
  [⟨"08:00", "1", "CityA", "mon_fri", "none"⟩,
   ⟨"09:00", "2", "CityB", "mon_fri", "school_only"⟩,
   ⟨"10:00", "3", "CityC", "mon_fri", "free_day_only"⟩,
   ⟨"11:00", "4", "CityD", "sun", "none"⟩]

/-- Witness for C2 on an ordinary school Tuesday. -/
theorem weekday_filter_school_check_witness :
    filterBuses dateC2 busesC2 = busesC2.filter (weekdaySchoolKeep dateC2) ∧
    (isSchoolDay dateC2 = false ↔
      ∃ d ∈ daysFreeFromSchool, d.day = dateC2.day ∧ d.month = dateC2.month) :=
  weekday_filter_school_check dateC2 busesC2 (by decide) (by decide) (by decide)

/-- A tagged entry of `taggedSelect` carrying tag 0 comes from the same-day
chunk. -/
theorem tag_zero_mem_sameDay (now : DateT) (stop : StopDetails) (e : StopDetailsBus)
    (h : (0, e) ∈ taggedSelect now stop) : e ∈ sameDayBuses now stop := by
  unfold taggedSelect at h
  have h2 := List.mem_of_mem_take h
  split at h2
  · rcases List.mem_append.mp h2 with h3 | h3
    · obtain ⟨b, hb, hbe⟩ := List.mem_map.mp h3
      obtain rfl : b = e := congrArg Prod.snd hbe
      exact hb
    · obtain ⟨b, hb, hbe⟩ := List.mem_map.mp h3
      exact absurd (congrArg Prod.fst hbe) (by simp)
  · obtain ⟨b, hb, hbe⟩ := List.mem_map.mp h2
    obtain rfl : b = e := congrArg Prod.snd hbe
    exact hb

/-- Claim C3: every output entry sourced from the reference day appears in
the returned board, its wall-clock time parses, and its concrete instant on
the reference date is not strictly before the reference instant. -/
theorem sameDay_output_not_past (now : DateT) (stop : StopDetails) (e : StopDetailsBus)
    (h : (0, e) ∈ taggedSelect now stop) :
    e ∈ (filterStopDetails now stop).buses ∧
    ∃ m, parseHHmm e.time = some m ∧ msOfDay now ≤ m * 60000 := by
  constructor
  · rw [filterStopDetails_eq_taggedSelect]
    exact List.mem_map.mpr ⟨(0, e), h, rfl⟩
  · exact keepNow_spec now e (mem_sameDayBuses now stop e (tag_zero_mem_sameDay now stop e h)).1

/-- Concrete stop for the schedule-board witnesses. -/
def stopC3 : StopDetails := ⟨"S1", busesC2⟩

/-- First entry of `busesC2`, used by several concrete scenarios. -/
def busA : StopDetailsBus := ⟨"08:00", "1", "CityA", "mon_fri", "none"⟩

/-- Witness for C3 on the Tuesday 07:30 scenario. -/
theorem sameDay_output_not_past_witness :
    busA ∈ (filterStopDetails dateC2 stopC3).buses ∧
    ∃ m, parseHHmm busA.time = some m ∧ msOfDay dateC2 ≤ m * 60000 :=
  sameDay_output_not_past dateC2 stopC3 busA (by decide)

/-- Concrete date for the C5 counterexample: 2025-06-13 is a Friday, and the
following Saturday is not a holiday. -/
def dateC5 : DateT := ⟨2025, 6, 13, 5, 12, 0, 0, 0⟩

/-- A Saturday entry whose time value does not parse as HH:mm. -/
def busBad : StopDetailsBus := ⟨"xx", "9", "CityX", "sat", "none"⟩

/-- Concrete stop for the C5 counterexample. -/
def stopC5 : StopDetails := ⟨"S2", [busBad]⟩

/-- Counterexample to C5 as stated: an entry with an unparseable time value
is retained in the output when it qualifies through the next-day extension,
because the extension never applies `parseBusTime`. -/
theorem unparseable_entry_in_output :
    parseHHmm busBad.time = none ∧
    busBad ∈ (filterStopDetails dateC5 stopC5).buses := by
  constructor
  · decide
  · decide

/-- Amended C5: on the reference day, entries whose time value is unparseable
are dropped (and the whole operation is total); the next-day repetition does
not filter by parseability. -/
theorem sameDay_entries_parseable (now : DateT) (stop : StopDetails) (e : StopDetailsBus)
    (h : (0, e) ∈ taggedSelect now stop) : (parseHHmm e.time).isSome = true := by
  obtain ⟨m, hm, -⟩ :=
    keepNow_spec now e (mem_sameDayBuses now stop e (tag_zero_mem_sameDay now stop e h)).1
  rw [hm]
  rfl

/-- Witness for the amended C5 on the Tuesday 07:30 scenario. -/
theorem sameDay_entries_parseable_witness : (parseHHmm busA.time).isSome = true :=
  sameDay_entries_parseable dateC2 stopC3 busA (by decide)

/-- Counterexample to C6 as stated: an entry occurring once in the source
timetable appears twice in the output — once from the reference day and once
from the appended next-day set — when both days classify alike and the
same-day count is below the limit. -/
theorem duplicate_entry_across_days :
    stopC3.buses.count busA = 1 ∧
    (filterStopDetails dateC2 stopC3).buses.count busA = 2 := by
  constructor
  · decide
  · decide

/-- Amended C6: each of the two day-chunks separately never repeats an entry
more often than the source timetable does, so the whole output repeats an
entry at most twice per source occurrence. -/
theorem chunk_counts_bounded (now : DateT) (stop : StopDetails) (b : StopDetailsBus) :
    (sameDayBuses now stop).count b ≤ stop.buses.count b ∧
    (extBuses now stop).count b ≤ stop.buses.count b ∧
    (filterStopDetails now stop).buses.count b ≤ 2 * stop.buses.count b := by
  have hs : (sameDayBuses now stop).count b ≤ stop.buses.count b := by
    unfold sameDayBuses filterBuses
    rw [count_jsSort]
    exact le_trans ((List.filter_sublist _).count_le b)
      ((List.filter_sublist _).count_le b)
  have he : (extBuses now stop).count b ≤ stop.buses.count b := by
    unfold extBuses filterBuses
    rw [count_jsSort]
    exact (List.filter_sublist _).count_le b
  refine ⟨hs, he, ?_⟩
  unfold filterStopDetails
  dsimp only
  split
  · have h1 := (List.take_sublist 15
      (sameDayBuses now stop ++ extBuses now stop)).count_le b
    rw [List.count_append] at h1
    omega
  · have h1 := (List.take_sublist 15 (sameDayBuses now stop)).count_le b
    omega

/-- Claim C7: the route slice equals its specification — no matching
checkpoint gives the empty list, and a match keeps exactly the checkpoints
whose text-encoded order is numerically strictly greater than the matched
checkpoint's, in input order. -/
theorem getRoute_eq_sliceAheadSpec (route : List Route) (latestRouteStop : String) :
    getRoute route latestRouteStop = sliceAheadSpec route latestRouteStop := by
  unfold getRoute sliceAheadSpec
  cases hf : route.find? (fun point => point.stopId == latestRouteStop) with
  | none => simp [jsFalsyStr]
  | some cp =>
    simp only [Option.map_some', jsFalsyStr]
    split
    · next hord =>
      have hempty : jsParseInt cp.order = none := by
        rw [beq_iff_eq.mp hord]
        rfl
      symm
      rw [List.filter_eq_nil_iff]
      intro p hp
      rw [hempty]
      cases jsParseInt p.order <;> simp [jsGtNum]
    · rfl

/-- The two phrasings of the projection's keep-condition agree: keeping both
coordinates nonzero is dropping on either coordinate being zero. -/
theorem keep_pred_eq (c : ℚ × ℚ) :
    (decide (c.1 ≠ 0) && decide (c.2 ≠ 0)) = !(decide (c.1 = 0 ∨ c.2 = 0)) := by
  by_cases h1 : c.1 = 0 <;> by_cases h2 : c.2 = 0 <;> simp [h1, h2]

/-- Mapping misses to the origin sentinel and then filtering zero coordinates
is the same as dropping the misses outright and filtering the rest, because
the sentinel itself always fails the coordinate test. -/
theorem path_filterMap_eq (route : List Route) (stops : List Stop) :
    (route.map (resolveCoord stops)).filter
        (fun c => decide (c.1 ≠ 0) && decide (c.2 ≠ 0)) =
    (route.filterMap (fun point =>
        (stops.find? (fun stop => stop.id == point.stopId)).map
          (fun stop => (stop.lat, stop.lon)))).filter
      (fun c => decide (c.1 ≠ 0) && decide (c.2 ≠ 0)) := by
  induction route with
  | nil => rfl
  | cons p ps ih =>
    simp only [List.map_cons, List.filterMap_cons]
    cases hf : stops.find? (fun stop => stop.id == p.stopId) with
    | none =>
      have hr : resolveCoord stops p = ((0 : ℚ), (0 : ℚ)) := by
        unfold resolveCoord; rw [hf]
      rw [hr]
      simp only [hf, Option.map_none']
      simp only [List.filter_cons]
      simpa using ih
    | some s =>
      have hr : resolveCoord stops p = (s.lat, s.lon) := by
        unfold resolveCoord; rw [hf]
      rw [hr]
      simp only [hf, Option.map_some']
      simp only [List.filter_cons]
      rw [ih]

/-- Vehicle, route slice and stop table for the projection counterexamples:
the only checkpoint resolves to latitude 0, longitude 16 — a point on the
equator that is not the origin sentinel. -/
def busV : Bus :=
  ⟨"V1", "301", 50, 16, "5", "R1", "A1", "+00:00", "bus-on-time", "CityZ"⟩

/-- A stop on the equator (latitude 0) away from the origin. -/
def stopZero : Stop := ⟨"Equator", "Marker", "A2", 0, 16, "about:blank"⟩

/-- One-checkpoint slice referencing the equator stop. -/
def routeC8 : List Route := [⟨"1", "301", "0", "16", "Marker", "2", "1", "A2"⟩]

/-- Stop table containing only the equator stop. -/
def stopsC8 : List Stop := [stopZero]

/-- Counterexample to C8 as stated: the code's path drops the equator stop,
which resolves to (0, 16) and so is not a lookup miss nor the (0,0)
sentinel; the claimed projection keeps it. -/
theorem projection_differs_from_claimed_spec :
    fullPath busV routeC8 stopsC8 ≠ projectPathSpec busV routeC8 stopsC8 := by
  decide

/-- Amended C8: the first coordinate is the vehicle's position and the rest
are, in order, the resolved slice coordinates with lookup misses and any
coordinate whose latitude or longitude is zero omitted; an empty slice gives
the single-point path. -/
theorem fullPath_drops_zero_coordinates (bus : Bus) (route : List Route) (stops : List Stop) :
    fullPath bus route stops = projectPathZeroDrop bus route stops ∧
    fullPath bus [] stops = [(bus.lat, bus.lon)] := by
  constructor
  · unfold fullPath projectPathZeroDrop
    rw [path_filterMap_eq]
    exact congrArg _ (List.filter_congr (fun a _ => keep_pred_eq a))
  · rfl

/-- Claim C10: the projection's tail filters the resolved slice coordinates
with the drop condition "latitude 0 or longitude 0" — broader than the exact
origin — so the genuine equator stop of `stopsC8` vanishes from the path. -/
theorem route_projection_zero_drop (bus : Bus) (route : List Route) (stops : List Stop) :
    fullPath bus route stops = (bus.lat, bus.lon) ::
      ((route.map (resolveCoord stops)).filter
        (fun c => !(decide (c.1 = 0 ∨ c.2 = 0)))) ∧
    fullPath busV routeC8 stopsC8 = [(busV.lat, busV.lon)] := by
  constructor
  · unfold fullPath
    exact congrArg _ (List.filter_congr (fun a _ => keep_pred_eq a))
  · decide

/-- The store `filterStopDetailsHeap` ends with, written with the chunk
definitions. -/
def heapAfter (now : DateT) (stop : StopDetails) : Heap :=
  if (sameDayBuses now stop).length < 15 then
    [stop.buses, filterBuses now stop.buses, sameDayBuses now stop,
     extBuses now stop, sameDayBuses now stop ++ extBuses now stop,
     (sameDayBuses now stop ++ extBuses now stop).take 15]
  else
    [stop.buses, filterBuses now stop.buses, sameDayBuses now stop,
     (sameDayBuses now stop).take 15]

/-- Replaying the heap semantics gives the pure result and the expected final
store. -/
theorem filterStopDetailsHeap_eq (now : DateT) (stop : StopDetails) :
    filterStopDetailsHeap now stop = (filterStopDetails now stop, heapAfter now stop) := by
  unfold filterStopDetailsHeap
  dsimp only
  split
  · next h1 =>
    have h2 : (sameDayBuses now stop).length < 15 := h1
    unfold filterStopDetails heapAfter
    rw [if_pos h2, if_pos h2]
    rfl
  · next h1 =>
    have h2 : ¬(sameDayBuses now stop).length < 15 := h1
    unfold filterStopDetails heapAfter
    rw [if_neg h2, if_neg h2]
    rfl

/-- Claim C9: the caller's buses array (reference 0 of the store) is exactly
the input after the call — every sort acted on a freshly allocated array —
and the returned value carries the input's stop id while agreeing with the
pure function. -/
theorem filterStopDetails_no_mutation (now : DateT) (stop : StopDetails) :
    hGet (filterStopDetailsHeap now stop).2 0 = stop.buses ∧
    (filterStopDetailsHeap now stop).1.id = stop.id ∧
    (filterStopDetailsHeap now stop).1 = filterStopDetails now stop := by
  rw [filterStopDetailsHeap_eq]
  refine ⟨?_, rfl, rfl⟩
  unfold heapAfter
  split <;> rfl

